import Mathlib

/-!
Theme state and collection search state

A shallow embedding of the two context providers of the repository,
`src/context/DarkMode.jsx` and `src/context/SearchCollection.jsx`, and the
properties proved about them.

* React state is explicit: a setter call is a function from the old state to the new one.
* A JavaScript exception is the `error` case of `Except JsError`.
* A property that may be absent on an object read from upstream is an `Option`.
-/

namespace UnsplashCollections

/-! ## Host runtime -/

/-- Exceptions the embedded code can raise: the `TypeError` of reading a property of
`undefined`, and an `Error` constructed with a message by `throw new Error(message)`. -/
inductive JsError where
  | typeError
  | error (message : String)
  deriving DecidableEq, Repr

deriving instance DecidableEq for Except

/-- String primitives of the host that the code calls. `toLowerCase` stands for
`String.prototype.toLowerCase`, whose full Unicode case mapping is not reproduced here:
the development relies only on its being a function that maps the empty string to
itself. -/
structure Runtime where
  toLowerCase : String → String
  toLowerCase_empty : toLowerCase "" = ""

/-- Lower-casing of the letters `A`-`Z`, every other character unchanged; on ASCII
strings this is what `String.prototype.toLowerCase` computes. -/
def asciiLower (s : String) : String :=
  ⟨s.data.map Char.toLower⟩

/-- The runtime used to evaluate the code on ASCII inputs. -/
def asciiRuntime : Runtime where
  toLowerCase := asciiLower
  toLowerCase_empty := rfl

/-- `String.prototype.includes`: `searchString` occurs in `s` as a contiguous run. -/
def includes (s searchString : String) : Bool :=
  decide (searchString.data <:+: s.data)

/-- `Array.prototype.filter` with a callback that may throw: elements are visited in
order, the first exception aborts the call, otherwise the elements on which the
callback returned `true` are kept in order. -/
def filter {α : Type} (callback : α → Except JsError Bool) : List α → Except JsError (List α)
  | [] => .ok []
  | a :: as =>
    match callback a with
    | .error e => .error e
    | .ok keep =>
      match filter callback as with
      | .error e => .error e
      | .ok rest => .ok (if keep then a :: rest else rest)

/-- `DOMTokenList.add` on the ordered token set of a `class` attribute. -/
def classListAdd (token : String) (classList : List String) : List String :=
  if token ∈ classList then classList else classList ++ [token]

/-- `DOMTokenList.remove` on the ordered token set of a `class` attribute. -/
def classListRemove (token : String) (classList : List String) : List String :=
  classList.filter (fun t => t != token)

/-! ## `SearchCollection.jsx` -/

/-- The `Image` typedef. -/
structure Image where
  imageId : String
  deriving DecidableEq, Repr

/-- The `Collection` typedef. The typedef declares `images` as an array; `none` stands
for an object that reached the provider without that property, so that reading
`collection.images` yields `undefined`. -/
structure Collection where
  name : String
  images : Option (List Image)
  deriving DecidableEq, Repr

/-- A list of collections as the typedef describes it: each one has its `images`. -/
def WellFormed (initial : List Collection) : Prop :=
  ∀ c ∈ initial, c.images ≠ none

instance (initial : List Collection) : Decidable (WellFormed initial) := by
  unfold WellFormed; infer_instance

/-- The expression `collection.images.every(callback)`: a `TypeError` when `images` is
`undefined`, otherwise whether every image passes the callback. -/
def imagesEvery (collection : Collection) (callback : Image → Bool) : Except JsError Bool :=
  match collection.images with
  | none => .error .typeError
  | some images => .ok (images.all callback)

/-- The state the provider function closes over: the route parameter `id` (absent when
the route has none), the upstream list `initial`, and the `collections` state cell. -/
structure ProviderState where
  id : Option String
  initial : List Collection
  collections : List Collection
  deriving DecidableEq, Repr

/-- The argument of `setCollections` in the effect (lines 39-41): the collections none
of whose images has the route id. -/
def defaultView (initial : List Collection) (id : Option String) :
    Except JsError (List Collection) :=
  filter (fun collection => imagesEvery collection fun image => some image.imageId != id) initial

/-- The effect of lines 36-44, run whenever `id` or `initial` changed: a non-empty
upstream list replaces `collections` by the default view, an empty one leaves the
state as it is. -/
def recompute (s : ProviderState) : Except JsError ProviderState :=
  if s.initial.length > 0 then
    match defaultView s.initial s.id with
    | .error e => .error e
    | .ok view => .ok { s with collections := view }
  else
    .ok s

/-- The callback of the filter in `search` (lines 55-57). The `&&` evaluates the
`images` test only when the name test succeeded. -/
def searchCallback (R : Runtime) (query imageId : String) (collection : Collection) :
    Except JsError Bool :=
  if includes (R.toLowerCase collection.name) (R.toLowerCase query) then
    imagesEvery collection fun image => image.imageId != imageId
  else
    .ok false

/-- The argument of `setCollections` in `search` (lines 54-58). -/
def searchView (R : Runtime) (initial : List Collection) (query imageId : String) :
    Except JsError (List Collection) :=
  filter (searchCallback R query imageId) initial

/-- The function `search` of lines 52-60 as a state transition. -/
def search (R : Runtime) (s : ProviderState) (query imageId : String) :
    Except JsError ProviderState :=
  match searchView R s.initial query imageId with
  | .error e => .error e
  | .ok view => .ok { s with collections := view }

/-- What can happen to a mounted provider: the route id changes, the upstream list
changes (either re-runs the effect), or a consumer calls `search`. -/
inductive Step where
  | routeChange (id : Option String)
  | upstreamChange (initial : List Collection)
  | search (query imageId : String)
  deriving DecidableEq, Repr

/-- One provider step. -/
def step (R : Runtime) (s : ProviderState) : Step → Except JsError ProviderState
  | .routeChange id => recompute { s with id := id }
  | .upstreamChange initial => recompute { s with initial := initial }
  | .search query imageId => search R s query imageId

/-- Mounting: `useState([])` followed by the first run of the effect. -/
def mount (id : Option String) (initial : List Collection) : Except JsError ProviderState :=
  recompute { id := id, initial := initial, collections := [] }

/-- A sequence of provider steps, stopping at the first exception. -/
def run (R : Runtime) (s : ProviderState) : List Step → Except JsError ProviderState
  | [] => .ok s
  | st :: rest =>
    match step R s st with
    | .error e => .error e
    | .ok t => run R t rest

/-- The value the provider hands to its consumers. -/
structure SearchCollectionsContextValue where
  collections : List Collection
  search : String → String → Except JsError (List Collection)
  isLoading : Bool

/-- The accessor `useCollectionsList` (lines 76-84); `context` is the result of
`useContext`, `none` being the `null` default of `createContext(null)`. -/
def useCollectionsList (context : Option SearchCollectionsContextValue) :
    Except JsError SearchCollectionsContextValue :=
  match context with
  | none => .error (.error "useCollectionsList must be used within a SearchCollectionsProvider")
  | some value => .ok value

/-! ## `DarkMode.jsx` -/

/-- Modelled from the spec: the setter returned by `useLocalStorageState`, whose source
is not part of the files at hand. Like a React state setter it is given an updater and
replaces the stored value by the updater applied to the current one. -/
def setIsDarkMode (updater : Bool → Bool) (isDarkMode : Bool) : Bool :=
  updater isDarkMode

/-- The function `toggleDarkMode` of lines 37-39 as a transition of `isDarkMode`. -/
def toggleDarkMode (isDarkMode : Bool) : Bool :=
  setIsDarkMode (fun prev => !prev) isDarkMode

/-- The effect of lines 25-32 as a transition of the root element's class list. -/
def themeEffect (isDarkMode : Bool) (classList : List String) : List String :=
  if isDarkMode then classListAdd "dark" classList else classListRemove "dark" classList

/-- The value the provider hands to its consumers; `toggleDarkMode` is kept as the
transition it requests. -/
structure DarkModeContextValue where
  isDarkMode : Bool
  toggleDarkMode : Bool → Bool

/-- The accessor `useDarkMode` (lines 55-61). -/
def useDarkMode (context : Option DarkModeContextValue) : Except JsError DarkModeContextValue :=
  match context with
  | none => .error (.error "useDarkMode must be used within a DarkModeProvider")
  | some value => .ok value

/-! ## The scenario of the specification -/

/-- The collection `{name: "Trip", images: [{imageId: "a"}]}`. -/
def trip : Collection := { name := "Trip", images := some [{ imageId := "a" }] }

/-- The collection `{name: "Work", images: [{imageId: "b"}]}`. -/
def work : Collection := { name := "Work", images := some [{ imageId := "b" }] }

/-- A collection object named `"Trip"` that has no `images` property. -/
def tripNoImages : Collection := { name := "Trip", images := none }

/-! ## What the specification says -/

/-- The images of a collection, none when the property is absent. -/
def imagesOf (c : Collection) : List Image :=
  c.images.getD []

/-- No image of `c` has the identifier `id`. -/
def NoImageWith (id : Option String) (c : Collection) : Prop :=
  ∀ image ∈ imagesOf c, some image.imageId ≠ id

instance (id : Option String) (c : Collection) : Decidable (NoImageWith id c) := by
  unfold NoImageWith; infer_instance

/-- The specification of `search`: the collections of `initial`, in their order, whose
lower-cased name has the lower-cased query as a substring and none of whose images has
the identifier `imageId`. -/
def searchSpec (R : Runtime) (initial : List Collection) (query imageId : String) :
    List Collection :=
  initial.filter fun c =>
    decide ((R.toLowerCase query).data <:+: (R.toLowerCase c.name).data ∧
      NoImageWith (some imageId) c)

/-- The specification of the default view: the collections of `initial`, in their
order, none of whose images has the identifier `id`. -/
def defaultSpec (initial : List Collection) (id : Option String) : List Collection :=
  initial.filter fun c => decide (NoImageWith id c)

/-- The invariant of the data model: `collections` is a subset of `initial` and none of
its members contains an image with the route id. -/
def ViewInvariant (s : ProviderState) : Prop :=
  s.collections ⊆ s.initial ∧ ∀ c ∈ s.collections, NoImageWith s.id c

instance (s : ProviderState) : Decidable (ViewInvariant s) := by
  unfold ViewInvariant; infer_instance

/-- Every `search` step of the sequence passes the route id current at that moment as
its `imageId`. The route id changes only in `routeChange` steps. -/
def searchesUseRouteId (id : Option String) : List Step → Prop
  | [] => True
  | .routeChange id' :: rest => searchesUseRouteId id' rest
  | .upstreamChange _ :: rest => searchesUseRouteId id rest
  | .search _ imageId :: rest => id = some imageId ∧ searchesUseRouteId id rest

/-- A provider's life: mounting, then a sequence of steps. -/
def session (R : Runtime) (id : Option String) (initial : List Collection)
    (steps : List Step) : Except JsError ProviderState :=
  match mount id initial with
  | .error e => .error e
  | .ok s => run R s steps

/-- The upstream list of the specification's scenario. -/
def scenario : List Collection := [trip, work]

/-! ## Lemmas on `filter` -/

theorem filter_ok_of_forall {α : Type} (callback : α → Except JsError Bool) (p : α → Bool)
    (l : List α) (h : ∀ a ∈ l, callback a = .ok (p a)) :
    filter callback l = .ok (l.filter p) := by
  induction l with
  | nil => rfl
  | cons a as ih =>
    have ha : callback a = .ok (p a) := h a (List.mem_cons_self a as)
    have has : filter callback as = .ok (as.filter p) :=
      ih fun b hb => h b (List.mem_cons_of_mem a hb)
    simp only [filter, ha, has, List.filter_cons]

theorem filter_error_of_mem {α : Type} (callback : α → Except JsError Bool) (e : JsError)
    (hall : ∀ a e', callback a = .error e' → e' = e) (l : List α) (a : α) (ha : a ∈ l)
    (hthrow : callback a = .error e) : filter callback l = .error e := by
  induction l with
  | nil => cases ha
  | cons b bs ih =>
    cases hb : callback b with
    | error e' =>
      have := hall b e' hb
      subst this
      simp only [filter, hb]
    | ok keep =>
      have hmem : a ∈ bs := by
        rcases List.mem_cons.mp ha with rfl | h
        · rw [hthrow] at hb; cases hb
        · exact h
      simp only [filter, hb, ih hmem]

theorem filter_sound {α : Type} (callback : α → Except JsError Bool) :
    ∀ (l r : List α), filter callback l = .ok r →
      r.Sublist l ∧ ∀ a ∈ r, callback a = .ok true := by
  intro l
  induction l with
  | nil =>
    intro r h
    simp only [filter, Except.ok.injEq] at h
    subst h
    exact ⟨List.Sublist.slnil, fun a ha => by cases ha⟩
  | cons b bs ih =>
    intro r h
    cases hb : callback b with
    | error e => simp only [filter, hb] at h; cases h
    | ok keep =>
      cases hbs : filter callback bs with
      | error e => simp only [filter, hb, hbs] at h; cases h
      | ok rest =>
        obtain ⟨hsub, hrest⟩ := ih rest hbs
        simp only [filter, hb, hbs, Except.ok.injEq] at h
        subst h
        cases keep with
        | false => exact ⟨hsub.cons b, hrest⟩
        | true =>
          refine ⟨hsub.cons₂ b, ?_⟩
          intro a ha
          rcases List.mem_cons.mp ha with rfl | h
          · exact hb
          · exact hrest a h

/-! ## Lemmas on the callbacks -/

theorem imagesEvery_of_some (c : Collection) (callback : Image → Bool) (h : c.images ≠ none) :
    imagesEvery c callback = .ok ((imagesOf c).all callback) := by
  unfold imagesEvery imagesOf
  cases hc : c.images with
  | none => exact absurd hc h
  | some images => rfl

theorem imagesEvery_of_none (c : Collection) (callback : Image → Bool) (h : c.images = none) :
    imagesEvery c callback = .error .typeError := by
  unfold imagesEvery
  rw [h]

theorem imagesEvery_error (c : Collection) (callback : Image → Bool) (e : JsError)
    (h : imagesEvery c callback = .error e) : e = .typeError ∧ c.images = none := by
  unfold imagesEvery at h
  cases hc : c.images with
  | none => rw [hc] at h; cases h; exact ⟨rfl, rfl⟩
  | some images => rw [hc] at h; cases h

theorem all_bne_eq_decide (id : Option String) (c : Collection) :
    ((imagesOf c).all fun image => some image.imageId != id) = decide (NoImageWith id c) := by
  rw [Bool.eq_iff_iff]
  simp [NoImageWith, List.all_eq_true]

theorem all_bne_string_eq_decide (imageId : String) (c : Collection) :
    ((imagesOf c).all fun image => image.imageId != imageId)
      = decide (NoImageWith (some imageId) c) := by
  rw [Bool.eq_iff_iff]
  simp [NoImageWith, List.all_eq_true]

theorem defaultView_of_wellFormed (initial : List Collection) (id : Option String)
    (hwf : WellFormed initial) : defaultView initial id = .ok (defaultSpec initial id) := by
  unfold defaultView defaultSpec
  apply filter_ok_of_forall
  intro c hc
  rw [imagesEvery_of_some c _ (hwf c hc), all_bne_eq_decide]

theorem searchCallback_of_some (R : Runtime) (query imageId : String) (c : Collection)
    (h : c.images ≠ none) :
    searchCallback R query imageId c =
      .ok (decide ((R.toLowerCase query).data <:+: (R.toLowerCase c.name).data ∧
        NoImageWith (some imageId) c)) := by
  unfold searchCallback includes
  by_cases hq : (R.toLowerCase query).data <:+: (R.toLowerCase c.name).data
  · simp only [hq, decide_True, if_true, true_and]
    rw [imagesEvery_of_some c _ h, all_bne_string_eq_decide]
  · simp only [hq, decide_False, false_and]
    rfl

theorem searchView_of_wellFormed (R : Runtime) (initial : List Collection)
    (query imageId : String) (hwf : WellFormed initial) :
    searchView R initial query imageId = .ok (searchSpec R initial query imageId) := by
  unfold searchView searchSpec
  apply filter_ok_of_forall
  intro c hc
  exact searchCallback_of_some R query imageId c (hwf c hc)

theorem search_of_wellFormed (R : Runtime) (s : ProviderState) (query imageId : String)
    (hwf : WellFormed s.initial) :
    search R s query imageId
      = .ok { s with collections := searchSpec R s.initial query imageId } := by
  unfold search
  rw [searchView_of_wellFormed R s.initial query imageId hwf]

theorem includes_empty (R : Runtime) (name : String) :
    includes (R.toLowerCase name) (R.toLowerCase "") = true := by
  unfold includes
  rw [R.toLowerCase_empty]
  exact decide_eq_true List.nil_infix

theorem imagesEvery_ok_true (c : Collection) (id : Option String)
    (h : imagesEvery c (fun image => some image.imageId != id) = .ok true) :
    NoImageWith id c := by
  have hsome : c.images ≠ none := by
    intro hnone
    rw [imagesEvery_of_none c _ hnone] at h
    cases h
  rw [imagesEvery_of_some c _ hsome, all_bne_eq_decide, Except.ok.injEq] at h
  exact of_decide_eq_true h

theorem searchCallback_ok_true (R : Runtime) (query imageId : String) (c : Collection)
    (h : searchCallback R query imageId c = .ok true) : NoImageWith (some imageId) c := by
  unfold searchCallback at h
  by_cases hq : includes (R.toLowerCase c.name) (R.toLowerCase query) = true
  · rw [if_pos hq] at h
    have hsome : c.images ≠ none := by
      intro hnone
      rw [imagesEvery_of_none c _ hnone] at h
      cases h
    rw [imagesEvery_of_some c _ hsome, all_bne_string_eq_decide, Except.ok.injEq] at h
    exact of_decide_eq_true h
  · rw [if_neg hq] at h
    cases h

theorem searchCallback_error (R : Runtime) (query imageId : String) (c : Collection)
    (e : JsError) (h : searchCallback R query imageId c = .error e) :
    e = .typeError ∧ c.images = none ∧
      includes (R.toLowerCase c.name) (R.toLowerCase query) = true := by
  unfold searchCallback at h
  by_cases hq : includes (R.toLowerCase c.name) (R.toLowerCase query) = true
  · rw [if_pos hq] at h
    obtain ⟨he, hnone⟩ := imagesEvery_error c _ e h
    exact ⟨he, hnone, hq⟩
  · rw [if_neg hq] at h
    cases h

theorem searchCallback_of_none (R : Runtime) (query imageId : String) (c : Collection)
    (hnone : c.images = none)
    (hq : includes (R.toLowerCase c.name) (R.toLowerCase query) = true) :
    searchCallback R query imageId c = .error .typeError := by
  unfold searchCallback
  rw [if_pos hq, imagesEvery_of_none c _ hnone]

theorem filter_ok_or_error {α : Type} (callback : α → Except JsError Bool) (l : List α) :
    (∃ r, filter callback l = .ok r) ∨ ∃ a ∈ l, ∃ e, callback a = .error e := by
  induction l with
  | nil => exact Or.inl ⟨[], rfl⟩
  | cons b bs ih =>
    cases hb : callback b with
    | error e => exact Or.inr ⟨b, List.mem_cons_self b bs, e, hb⟩
    | ok keep =>
      rcases ih with ⟨r, hr⟩ | ⟨a, ha, e, he⟩
      · exact Or.inl ⟨if keep then b :: r else r, by simp only [filter, hb, hr]⟩
      · exact Or.inr ⟨a, List.mem_cons_of_mem b ha, e, he⟩

theorem recompute_sound (s t : ProviderState) (h : recompute s = .ok t) :
    t.id = s.id ∧ t.initial = s.initial ∧ (t.initial ≠ [] → ViewInvariant t) := by
  unfold recompute at h
  by_cases hlen : s.initial.length > 0
  · rw [if_pos hlen] at h
    cases hv : defaultView s.initial s.id with
    | error e => rw [hv] at h; cases h
    | ok view =>
      rw [hv, Except.ok.injEq] at h
      subst h
      obtain ⟨hsub, hall⟩ := filter_sound _ _ _ hv
      exact ⟨rfl, rfl, fun _ => ⟨hsub.subset, fun c hc => imagesEvery_ok_true c s.id (hall c hc)⟩⟩
  · rw [if_neg hlen, Except.ok.injEq] at h
    subst h
    refine ⟨rfl, rfl, fun hne => absurd (List.length_pos.mpr hne) hlen⟩

theorem search_sound (R : Runtime) (s t : ProviderState) (query imageId : String)
    (h : search R s query imageId = .ok t) :
    t.id = s.id ∧ t.initial = s.initial ∧
      t.collections ⊆ t.initial ∧ ∀ c ∈ t.collections, NoImageWith (some imageId) c := by
  unfold search at h
  cases hv : searchView R s.initial query imageId with
  | error e => rw [hv] at h; cases h
  | ok view =>
    rw [hv, Except.ok.injEq] at h
    subst h
    obtain ⟨hsub, hall⟩ := filter_sound _ _ _ hv
    exact ⟨rfl, rfl, hsub.subset, fun c hc => searchCallback_ok_true R query imageId c (hall c hc)⟩

theorem run_sound (R : Runtime) (steps : List Step) :
    ∀ (s t : ProviderState), (s.initial ≠ [] → ViewInvariant s) →
      searchesUseRouteId s.id steps → run R s steps = .ok t →
      (t.initial ≠ [] → ViewInvariant t) := by
  induction steps with
  | nil =>
    intro s t hs _ hrun
    simp only [run, Except.ok.injEq] at hrun
    subst hrun
    exact hs
  | cons st rest ih =>
    intro s t hs huse hrun
    cases hst : step R s st with
    | error e => simp only [run, hst] at hrun; cases hrun
    | ok u =>
      simp only [run, hst] at hrun
      cases st with
      | routeChange id' =>
        obtain ⟨hid, _, hinv⟩ := recompute_sound _ _ hst
        exact ih u t hinv (by rw [hid]; exact huse) hrun
      | upstreamChange initial' =>
        obtain ⟨hid, _, hinv⟩ := recompute_sound _ _ hst
        exact ih u t hinv (by rw [hid]; exact huse) hrun
      | search query imageId =>
        obtain ⟨hid, _, hsub, hall⟩ := search_sound R s u query imageId hst
        have hroute : s.id = some imageId := huse.1
        refine ih u t (fun _ => ⟨hsub, ?_⟩) (by rw [hid]; exact huse.2) hrun
        rw [hid, hroute]
        exact hall

theorem filter_sublist_filter {α : Type} (p q : α → Bool) (h : ∀ a, p a = true → q a = true)
    (l : List α) : (l.filter p).Sublist (l.filter q) := by
  induction l with
  | nil => exact List.Sublist.slnil
  | cons a as ih =>
    by_cases hp : p a = true
    · rw [List.filter_cons_of_pos hp, List.filter_cons_of_pos (h a hp)]
      exact ih.cons₂ a
    · rw [List.filter_cons_of_neg hp]
      by_cases hq : q a = true
      · rw [List.filter_cons_of_pos hq]
        exact ih.cons a
      · rw [List.filter_cons_of_neg hq]
        exact ih

theorem searchCallback_empty_query (R : Runtime) (imageId : String) :
    searchCallback R "" imageId
      = fun collection => imagesEvery collection fun image => some image.imageId != some imageId := by
  funext c
  unfold searchCallback
  rw [if_pos (includes_empty R c.name)]
  congr 1

theorem defaultView_error_of_none (initial : List Collection) (id : Option String)
    (h : ∃ c ∈ initial, c.images = none) : defaultView initial id = .error .typeError := by
  obtain ⟨c, hc, hnone⟩ := h
  unfold defaultView
  exact filter_error_of_mem _ .typeError (fun a e he => (imagesEvery_error a _ e he).1)
    initial c hc (imagesEvery_of_none c _ hnone)

/-! ## `search` and the recompute effect -/

/-- C1. On an upstream list whose collections all carry their images, `search(q, imgId)`
succeeds and leaves in `collections` exactly the collections of `initial`, in their
original order, whose lower-cased name contains the lower-cased query and none of whose
images has the identifier `imgId`; the route id and `initial` are as before. -/
theorem search_spec (R : Runtime) (s : ProviderState) (query imageId : String)
    (hwf : WellFormed s.initial) :
    search R s query imageId
      = .ok { s with collections := searchSpec R s.initial query imageId } :=
  search_of_wellFormed R s query imageId hwf

/-- The scenario of the specification: with `initial = [Trip{a}, Work{b}]`,
`search("wor","a")` leaves `[Work]`, `search("trip","a")` and `search("xyz","b")`
leave `[]`. -/
theorem search_spec_witness :
    WellFormed scenario ∧
    search asciiRuntime ⟨some "a", scenario, [work]⟩ "wor" "a"
      = .ok ⟨some "a", scenario, [work]⟩ ∧
    search asciiRuntime ⟨some "a", scenario, [work]⟩ "trip" "a"
      = .ok ⟨some "a", scenario, []⟩ ∧
    search asciiRuntime ⟨some "a", scenario, [work]⟩ "xyz" "b"
      = .ok ⟨some "a", scenario, []⟩ :=
  ⟨by decide,
   (search_spec asciiRuntime ⟨some "a", scenario, [work]⟩ "wor" "a" (by decide)).trans
     (by decide),
   (search_spec asciiRuntime ⟨some "a", scenario, [work]⟩ "trip" "a" (by decide)).trans
     (by decide),
   (search_spec asciiRuntime ⟨some "a", scenario, [work]⟩ "xyz" "b" (by decide)).trans
     (by decide)⟩

/-- C3, as the code has it. On an upstream list whose collections all carry their images:
when the list is non-empty, a run of the recompute effect leaves in `collections` exactly
the collections of `initial` none of whose images has the route id, whatever
`collections` held before, so that an earlier search narrowing is discarded; when the
list is empty the guard `initial.length > 0` skips the update and the state stays as it
was. -/
theorem recompute_spec (s : ProviderState) (hwf : WellFormed s.initial) :
    (s.initial ≠ [] →
      recompute s = .ok { s with collections := defaultSpec s.initial s.id }) ∧
    (s.initial = [] → recompute s = .ok s) := by
  constructor
  · intro hne
    unfold recompute
    rw [if_pos (List.length_pos.mpr hne), defaultView_of_wellFormed s.initial s.id hwf]
  · intro hnil
    unfold recompute
    rw [if_neg (by rw [hnil]; exact Nat.lt_irrefl 0)]

/-- The scenario of the specification: with `initial = [Trip{a}, Work{b}]` the route id
`"a"` gives `[Work]` on mount, and the change to `"b"` gives `[Trip]`. -/
theorem recompute_spec_witness :
    WellFormed scenario ∧ scenario ≠ [] ∧
    recompute ⟨some "a", scenario, []⟩ = .ok ⟨some "a", scenario, [work]⟩ ∧
    recompute ⟨some "b", scenario, [work]⟩ = .ok ⟨some "b", scenario, [trip]⟩ :=
  ⟨by decide, by decide,
   ((recompute_spec ⟨some "a", scenario, []⟩ (by decide)).1 (by decide)).trans (by decide),
   ((recompute_spec ⟨some "b", scenario, [work]⟩ (by decide)).1 (by decide)).trans
     (by decide)⟩

/-- C3 fails as stated when the upstream list is empty. A provider mounted on `[Trip{a}]`
with route id `"b"` shows `[Trip]`; when the upstream list then becomes `[]` the effect
runs and `collections` is still `[Trip]`, which is not the list of the collections of
`initial` without the route id (that list is empty). -/
theorem recompute_empty_counterexample :
    mount (some "b") [trip] = .ok ⟨some "b", [trip], [trip]⟩ ∧
    step asciiRuntime ⟨some "b", [trip], [trip]⟩ (.upstreamChange [])
      = .ok ⟨some "b", [], [trip]⟩ ∧
    [trip] ≠ defaultSpec [] (some "b") := by
  decide

/-- C2, as the code has it. In every state reached from mounting by provider steps in
which each `search` call passes the route id current at that moment, and in which the
upstream list is non-empty, `collections` is a subset of `initial` and none of its
members contains an image with the route id. -/
theorem viewInvariant_of_searchesUseRouteId (R : Runtime) (id : Option String)
    (initial : List Collection) (steps : List Step) (t : ProviderState)
    (hrun : session R id initial steps = .ok t) (huse : searchesUseRouteId id steps)
    (hne : t.initial ≠ []) : ViewInvariant t := by
  unfold session at hrun
  cases hm : mount id initial with
  | error e => rw [hm] at hrun; cases hrun
  | ok s =>
    rw [hm] at hrun
    obtain ⟨hid, _, hinv⟩ := recompute_sound _ _ hm
    exact run_sound R steps s t hinv (by rw [hid]; exact huse) hrun hne

/-- A session on the scenario in which every search passes the route id: mount at `"a"`,
`search("wor","a")`, route change to `"b"`, `search("","b")`. -/
theorem viewInvariant_of_searchesUseRouteId_witness :
    session asciiRuntime (some "a") scenario
        [.search "wor" "a", .routeChange (some "b"), .search "" "b"]
      = .ok ⟨some "b", scenario, [trip]⟩ ∧
    searchesUseRouteId (some "a") [.search "wor" "a", .routeChange (some "b"), .search "" "b"] ∧
    ViewInvariant ⟨some "b", scenario, [trip]⟩ :=
  ⟨by decide, ⟨rfl, rfl, trivial⟩,
   viewInvariant_of_searchesUseRouteId asciiRuntime (some "a") scenario
     [.search "wor" "a", .routeChange (some "b"), .search "" "b"]
     ⟨some "b", scenario, [trip]⟩ (by decide) ⟨rfl, rfl, trivial⟩ (by decide)⟩

/-- C2 fails as stated, in both of its parts. After mounting on `[Trip{a}, Work{b}]` at
route id `"a"`, the call `search("", "b")` leaves `[Trip]`, a collection that contains
the image `"a"` being viewed. After mounting on `[Trip{a}]` at route id `"b"`, a change
of the upstream list to `[]` leaves `[Trip]`, which is not a subset of `[]`. -/
theorem viewInvariant_counterexample :
    (session asciiRuntime (some "a") scenario [.search "" "b"]
        = .ok ⟨some "a", scenario, [trip]⟩ ∧
      ¬ ViewInvariant ⟨some "a", scenario, [trip]⟩) ∧
    (session asciiRuntime (some "b") [trip] [.upstreamChange []]
        = .ok ⟨some "b", [], [trip]⟩ ∧
      ¬ ViewInvariant ⟨some "b", [], [trip]⟩) := by
  decide

/-- C7, as the code has it. When the upstream list contains a collection without
`images`: the recompute effect fails with a `TypeError` for every route id and every
prior view; `search(q, imgId)` fails with a `TypeError` when some collection without
`images` has a name whose lower-casing contains the lower-cased query, which is always
so for the empty query; and when no such collection matches the query, the `&&` never
reads the missing `images` and `search` succeeds. -/
theorem filtering_without_images (R : Runtime) (initial : List Collection)
    (hmal : ∃ c ∈ initial, c.images = none) :
    (∀ id prior, recompute ⟨id, initial, prior⟩ = .error .typeError) ∧
    (∀ id prior query imageId,
      (∃ c ∈ initial, c.images = none ∧
          includes (R.toLowerCase c.name) (R.toLowerCase query) = true) →
        search R ⟨id, initial, prior⟩ query imageId = .error .typeError) ∧
    (∀ id prior imageId, search R ⟨id, initial, prior⟩ "" imageId = .error .typeError) ∧
    (∀ id prior query imageId,
      (¬ ∃ c ∈ initial, c.images = none ∧
          includes (R.toLowerCase c.name) (R.toLowerCase query) = true) →
        ∃ view, search R ⟨id, initial, prior⟩ query imageId = .ok ⟨id, initial, view⟩) := by
  have hthrows : ∀ id prior query imageId,
      (∃ c ∈ initial, c.images = none ∧
          includes (R.toLowerCase c.name) (R.toLowerCase query) = true) →
        search R ⟨id, initial, prior⟩ query imageId = .error .typeError := by
    intro id prior query imageId ⟨c, hc, hnone, hq⟩
    have hv : searchView R initial query imageId = .error .typeError :=
      filter_error_of_mem _ .typeError
        (fun a e he => (searchCallback_error R query imageId a e he).1)
        initial c hc (searchCallback_of_none R query imageId c hnone hq)
    simp only [search, hv]
  refine ⟨?_, hthrows, ?_, ?_⟩
  · intro id prior
    have hne : initial ≠ [] := by
      obtain ⟨c, hc, _⟩ := hmal
      exact List.ne_nil_of_mem hc
    unfold recompute
    rw [if_pos (List.length_pos.mpr hne)]
    simp only [defaultView_error_of_none initial id hmal]
  · intro id prior imageId
    obtain ⟨c, hc, hnone⟩ := hmal
    exact hthrows id prior "" imageId ⟨c, hc, hnone, includes_empty R c.name⟩
  · intro id prior query imageId hno
    rcases filter_ok_or_error (searchCallback R query imageId) initial with
      ⟨view, hview⟩ | ⟨c, hc, e, he⟩
    · have hv : searchView R initial query imageId = .ok view := hview
      exact ⟨view, by simp only [search, hv]⟩
    · obtain ⟨_, hnone, hq⟩ := searchCallback_error R query imageId c e he
      exact absurd ⟨c, hc, hnone, hq⟩ hno

/-- An upstream list `[Trip (no images), Work{b}]`: the effect fails, `search("tri","b")`
fails, `search("wor","a")` succeeds with `[Work]`. -/
theorem filtering_without_images_witness :
    (∃ c ∈ [tripNoImages, work], c.images = none) ∧
    recompute ⟨some "a", [tripNoImages, work], []⟩ = .error .typeError ∧
    search asciiRuntime ⟨some "a", [tripNoImages, work], []⟩ "tri" "b" = .error .typeError ∧
    search asciiRuntime ⟨some "a", [tripNoImages, work], []⟩ "wor" "a"
      = .ok ⟨some "a", [tripNoImages, work], [work]⟩ :=
  ⟨⟨tripNoImages, by decide, rfl⟩,
   (filtering_without_images asciiRuntime [tripNoImages, work]
      ⟨tripNoImages, by decide, rfl⟩).1 (some "a") [],
   by decide, by decide⟩

/-- C7 fails as stated for `search`. The upstream list `[Trip (no images)]` contains a
collection without `images`, and `search("xyz", "a")` does not fail: the name test is
false, `images` is never read, and the call leaves the empty view. -/
theorem search_without_images_counterexample :
    tripNoImages ∈ [tripNoImages] ∧ tripNoImages.images = none ∧
    search asciiRuntime ⟨some "a", [tripNoImages], []⟩ "xyz" "a"
      = .ok ⟨some "a", [tripNoImages], []⟩ := by
  decide

/-- C8. For the empty query `search` runs the same filter as the recompute effect does
for route id `imgId` (the name test lets every collection through): the two filter
expressions agree on every upstream list, on a list whose collections all carry their
images `search("", imgId)` leaves exactly the collections none of whose images has the
identifier `imgId`, and on a non-empty list the `collections` after `search("", imgId)`
are those after a run of the effect at route id `imgId`. -/
theorem search_empty_query (R : Runtime) (s : ProviderState) (imageId : String) :
    searchView R s.initial "" imageId = defaultView s.initial (some imageId) ∧
    (WellFormed s.initial →
      search R s "" imageId
        = .ok { s with collections := defaultSpec s.initial (some imageId) }) ∧
    (s.initial ≠ [] →
      (search R s "" imageId).map (fun t => t.collections)
        = (recompute { s with id := some imageId }).map (fun t => t.collections)) := by
  have hview : searchView R s.initial "" imageId = defaultView s.initial (some imageId) := by
    unfold searchView defaultView
    rw [searchCallback_empty_query]
  refine ⟨hview, ?_, ?_⟩
  · intro hwf
    unfold search
    rw [hview, defaultView_of_wellFormed s.initial (some imageId) hwf]
  · intro hne
    have hlen : s.initial.length > 0 := List.length_pos.mpr hne
    unfold search recompute
    simp only [hview, hlen, if_true]
    cases defaultView s.initial (some imageId) <;> rfl

/-- The empty query on the scenario: `search("", "a")` leaves `[Work]`, as does the
effect at route id `"a"`. -/
theorem search_empty_query_witness :
    WellFormed scenario ∧
    search asciiRuntime ⟨some "b", scenario, []⟩ "" "a" = .ok ⟨some "b", scenario, [work]⟩ ∧
    recompute ⟨some "a", scenario, []⟩ = .ok ⟨some "a", scenario, [work]⟩ :=
  ⟨by decide,
   ((search_empty_query asciiRuntime ⟨some "b", scenario, []⟩ "a").2.1 (by decide)).trans
     (by decide),
   by decide⟩

/-- C9. `search` rebuilds the view from `initial` alone: two states that differ only in
their previous `collections` are given the same new `collections`; a successful call
leaves `initial` and the route id as they were; and on a list whose collections all
carry their images the call succeeds with one view for every previous `collections`. -/
theorem search_frame (R : Runtime) (id : Option String) (initial : List Collection)
    (query imageId : String) :
    (∀ prior₁ prior₂,
      (search R ⟨id, initial, prior₁⟩ query imageId).map (fun t => t.collections)
        = (search R ⟨id, initial, prior₂⟩ query imageId).map (fun t => t.collections)) ∧
    (∀ prior t, search R ⟨id, initial, prior⟩ query imageId = .ok t →
      t.initial = initial ∧ t.id = id) ∧
    (WellFormed initial →
      ∃ view, ∀ prior, search R ⟨id, initial, prior⟩ query imageId = .ok ⟨id, initial, view⟩) := by
  refine ⟨?_, ?_, ?_⟩
  · intro prior₁ prior₂
    unfold search
    cases searchView R initial query imageId <;> rfl
  · intro prior t h
    obtain ⟨hid, hinit, _⟩ := search_sound R _ t query imageId h
    exact ⟨hinit, hid⟩
  · intro hwf
    exact ⟨searchSpec R initial query imageId, fun prior =>
      search_of_wellFormed R ⟨id, initial, prior⟩ query imageId hwf⟩

/-- On the scenario, `search("wor","a")` after a view `[]` and after a view `[Trip, Work]`
leaves the same state. -/
theorem search_frame_witness :
    WellFormed scenario ∧
    ∃ view, ∀ prior,
      search asciiRuntime ⟨some "a", scenario, prior⟩ "wor" "a" = .ok ⟨some "a", scenario, view⟩ :=
  ⟨by decide, (search_frame asciiRuntime (some "a") scenario "wor" "a").2.2 (by decide)⟩

/-- C10. On an upstream list whose collections all carry their images, the result of
`search(q, imgId)` is an order-preserving sublist of the result of `search("", imgId)`,
which is an order-preserving sublist of `initial`. -/
theorem search_narrows (R : Runtime) (s : ProviderState) (query imageId : String)
    (hwf : WellFormed s.initial) :
    ∃ narrowed whole,
      search R s query imageId = .ok { s with collections := narrowed } ∧
      search R s "" imageId = .ok { s with collections := whole } ∧
      narrowed.Sublist whole ∧ whole.Sublist s.initial := by
  refine ⟨searchSpec R s.initial query imageId, searchSpec R s.initial "" imageId,
    search_of_wellFormed R s query imageId hwf, search_of_wellFormed R s "" imageId hwf, ?_, ?_⟩
  · unfold searchSpec
    apply filter_sublist_filter
    intro c hc
    have h := of_decide_eq_true hc
    refine decide_eq_true ⟨?_, h.2⟩
    rw [R.toLowerCase_empty]
    exact List.nil_infix
  · exact List.filter_sublist _

/-- On the scenario, `search("wor","b")` leaves `[]`, `search("","b")` leaves `[Trip]`. -/
theorem search_narrows_witness :
    WellFormed scenario ∧
    ∃ narrowed whole,
      search asciiRuntime ⟨some "b", scenario, []⟩ "wor" "b"
        = .ok ⟨some "b", scenario, narrowed⟩ ∧
      search asciiRuntime ⟨some "b", scenario, []⟩ "" "b" = .ok ⟨some "b", scenario, whole⟩ ∧
      narrowed.Sublist whole ∧ whole.Sublist scenario :=
  ⟨by decide, search_narrows asciiRuntime ⟨some "b", scenario, []⟩ "wor" "b" (by decide)⟩

/-! ## The accessors -/

/-- C4. Each accessor, given the `null` default of its context, raises the error that
names the missing provider and returns no value; given a value supplied by the
provider, it returns that value and raises nothing. -/
theorem accessors_fail_fast :
    useDarkMode none = .error (.error "useDarkMode must be used within a DarkModeProvider") ∧
    useCollectionsList none
      = .error (.error "useCollectionsList must be used within a SearchCollectionsProvider") ∧
    (∀ value, useDarkMode none ≠ .ok value) ∧
    (∀ value, useCollectionsList none ≠ .ok value) ∧
    (∀ value, useDarkMode (some value) = .ok value) ∧
    (∀ value, useCollectionsList (some value) = .ok value) := by
  refine ⟨rfl, rfl, ?_, ?_, fun _ => rfl, fun _ => rfl⟩
  · intro value h
    cases h
  · intro value h
    cases h

/-! ## The theme -/

/-- C5. After `N` calls of `toggleDarkMode` the value of `isDarkMode` is the initial value
XOR (`N` is odd); one call negates it and two calls restore it. -/
theorem toggleDarkMode_iterate (b : Bool) (N : ℕ) :
    toggleDarkMode^[N] b = xor b (decide (N % 2 = 1)) ∧
    toggleDarkMode b = !b ∧ toggleDarkMode (toggleDarkMode b) = b := by
  refine ⟨?_, rfl, ?_⟩
  · induction N with
    | zero => simp
    | succ n ih =>
      rw [Function.iterate_succ_apply', ih]
      unfold toggleDarkMode setIsDarkMode
      rcases Nat.mod_two_eq_zero_or_one n with h | h
      · have h1 : (n + 1) % 2 = 1 := by omega
        simp [h, h1]
      · have h1 : (n + 1) % 2 = 0 := by omega
        simp [h, h1]
  · unfold toggleDarkMode setIsDarkMode
    cases b <;> rfl

/-- C6. After the theme effect has run, the class `dark` is on the root element exactly
when `isDarkMode` is true, whatever the class list was before; a second run with the
same `isDarkMode` leaves the class list as the first run left it. -/
theorem themeEffect_sync (isDarkMode : Bool) (classList : List String) :
    ("dark" ∈ themeEffect isDarkMode classList ↔ isDarkMode = true) ∧
    themeEffect isDarkMode (themeEffect isDarkMode classList)
      = themeEffect isDarkMode classList := by
  cases isDarkMode with
  | true =>
    have hmem : "dark" ∈ classListAdd "dark" classList := by
      unfold classListAdd
      by_cases h : "dark" ∈ classList
      · rw [if_pos h]; exact h
      · rw [if_neg h]; exact List.mem_append_right _ (List.mem_singleton_self _)
    refine ⟨⟨fun _ => rfl, fun _ => hmem⟩, ?_⟩
    show classListAdd "dark" (classListAdd "dark" classList) = classListAdd "dark" classList
    exact if_pos hmem
  | false =>
    refine ⟨⟨fun h => ?_, fun h => by cases h⟩, ?_⟩
    · have h' : "dark" ∈ classListRemove "dark" classList := h
      unfold classListRemove at h'
      simp at h'
    · show classListRemove "dark" (classListRemove "dark" classList)
        = classListRemove "dark" classList
      unfold classListRemove
      rw [List.filter_filter]
      simp

end UnsplashCollections
